import Mathlib

/-!
Shallow embedding of `codereview/engine.py` (Rietveld diff rendering) and
verification of the specification claims about it.

The embedding follows the source file function by function:
row generation (`_TableRowGenerator` with its helpers `_RenderDiffInternal`,
`_RenderDiffColumn`, `_RenderInlineComments`), collapsing
(`_CleanupTableRowsGenerator`, `_ShortenBuffer`), line counting
(`_ComputeLineCounts`), URL construction (`_MakeUrl`) and base fetching
(`FetchBase`).  External collaborators that are not part of this repository
(the `intra_region_diff` module, the comment datastore, the Django template
expander, `urlfetch`, `urlparse`) are abstracted as an explicit environment
of opaque functions, exactly at their call interfaces.
-/

set_option maxRecDepth 8000

namespace Rietveld

/-! ### Decimal rendering (Python `%d` / `str`) -/

/-- Fuel-driven helper for decimal rendering of a natural number.
`fuel` only has to dominate the number; `natLit n` uses `n` itself. -/
def natLitAux : Nat → Nat → List Char → List Char
  | 0, n, acc => Nat.digitChar (n % 10) :: acc
  | fuel + 1, n, acc =>
    if n < 10 then Nat.digitChar n :: acc
    else natLitAux fuel (n / 10) (Nat.digitChar (n % 10) :: acc)

/-- Decimal digit string of a natural number, as Python's `'%d' % n` / `str(n)`
renders it. -/
def natLit (n : Nat) : List Char := natLitAux n n []

/-- Decimal representation as a `String` (Python `str(n)` / `'%d' % n`). -/
def decRepr (n : Nat) : String := ⟨natLit n⟩

/-- Numeric value of a digit string, as Python `int(s)` computes it on the
digit group captured by the row-id regular expression. -/
def digitsToNat (acc : Nat) : List Char → Nat
  | [] => acc
  | c :: cs => digitsToNat (acc * 10 + (c.toNat - 48)) cs

/-! ### The row-id regular expression

`_ShortenBuffer` scans rendered rows with
`re.match('^<tr( name="hook")? id="pair-(?P<rowcount>\d+)">', t)`.
We model the regular expression as an executable parser over the character
list of the row. -/

/-- Match a literal character sequence at the front of `cs`, returning the
remainder on success. -/
def dropLit : List Char → List Char → Option (List Char)
  | [], cs => some cs
  | _ :: _, [] => none
  | p :: ps, c :: cs => if c = p then dropLit ps cs else none

/-- Maximal leading digit run of a character list, with the remainder
(the `\d+` group followed by the rest). -/
def takeDigits : List Char → List Char × List Char
  | [] => ([], [])
  | c :: cs =>
    if c.isDigit then
      let r := takeDigits cs
      (c :: r.1, r.2)
    else ([], c :: cs)

/-- Literal `<tr name="hook" id="pair-` (the regex alternative with the
optional group present). -/
def hookLit : List Char := "<tr name=\"hook\" id=\"pair-".data

/-- Literal `<tr id="pair-` (the regex alternative with the optional group
absent). -/
def plainLit : List Char := "<tr id=\"pair-".data

/-- The row-id regular expression `^<tr( name="hook")? id="pair-(\d+)">` as a
parser: returns the captured row number on a match. -/
def parseRowId (cs : List Char) : Option Nat :=
  let rest? :=
    match dropLit hookLit cs with
    | some r => some r
    | none => dropLit plainLit cs
  match rest? with
  | none => none
  | some r =>
    match takeDigits r with
    | ([], _) => none
    | (ds, r2) =>
      match dropLit ['"', '>'] r2 with
      | some _ => some (digitsToNat 0 ds)
      | none => none

/-- Row-id extraction from a rendered row string (`re.match` + `int`). -/
def rowIdOf (s : String) : Option Nat := parseRowId s.data

/-- Python `s.startswith(pre)` (reducible model of `String.startsWith`). -/
def strStartsWith (s pre : String) : Bool := pre.data.isPrefixOf s.data

/-- Python `s.endswith(post)` (reducible model of `String.endsWith`). -/
def strEndsWith (s post : String) : Bool := post.data.isSuffixOf s.data

/-! ### String helpers -/

/-- Python `''.join(frags)`. -/
def joinList (l : List String) : String := l.foldl (· ++ ·) ""

/-- Python `'%*d' % (w, n)`-style right justification with spaces. -/
def rjust (w : Nat) (s : String) : String := ⟨List.replicate (w - s.length) ' ' ++ s.data⟩

/-- Replacement table of `cgi.escape` (without quote handling). -/
def cgiEscapeChar (c : Char) : List Char :=
  if c = '&' then "&amp;".data
  else if c = '<' then "&lt;".data
  else if c = '>' then "&gt;".data
  else [c]

/-- Python `cgi.escape(s)`: escape `&`, `<`, `>`. -/
def cgiEscape (s : String) : String := ⟨s.data.flatMap cgiEscapeChar⟩

/-- Embedding of `_MarkupNumber(ndigits, number, tag)`: the number
right-aligned to `ndigits` and wrapped in the HTML tag. -/
def MarkupNumber (ndigits number : Nat) (tag : String) : String :=
  (⟨List.replicate (ndigits - (decRepr number).length) ' '⟩ : String) ++
    "<" ++ tag ++ ">" ++ decRepr number ++ "</" ++ tag ++ ">"

/-! ### Data model

`models.Patch` is identified by its datastore key plus the patch text lines
used by `_TableRowGenerator`; `models.Comment` carries the fields the engine
reads (`author`, `draft`, `left`, `lineno`).  A Python `None` patch is
`Option.none`. -/

structure Patch where
  key : Nat
  lines : List String
deriving DecidableEq

structure Comment where
  author : String
  draft : Bool
  left : Bool
  lineno : Nat
  body : String
deriving DecidableEq

/-- The per-side comment lookup built by the render entry points: Python's
`dict` from line number to the insertion-ordered comment list
(`dct.setdefault(comment.lineno, []).append(comment)`); absent keys are the
empty list. -/
abbrev CommentDict := Nat → List Comment

/-- One diff operation `(tag, old_slice, new_slice)` as yielded by the
triple iterator consumed by `_TableRowGenerator`. -/
abbrev Triple := String × List String × List String

/-- One rendered line as held in the generator buffers after intra-region
diffing: `(intra_diff, has_newline, debug_info)`. -/
abbrev RenderOut := String × Bool × Option String

/-- One buffered `[valid, lineno, out]` entry of `old_buff`/`new_buff` as
consumed by `_RenderDiffInternal`. -/
abbrev REntry := Bool × Nat × RenderOut

/-- External collaborators of the engine, abstracted at their call
interfaces: the `intra_region_diff` module (`CanDoIRDiff`, `Fold`, the
composition of `IntraRegionDiff` with `RenderIntraRegionDiff` for each side,
the `BEGIN_TAG`/`COLOR_SCHEME`/`END_TAG` constants), the Django template
expander used for `inline_comment.html`, and the ambient
`users.get_current_user()`. -/
structure Env where
  canDoIRDiff : List String → List String → Bool
  fold : String → Nat → Nat → Nat → String
  irOld : List String → List String → Nat → Nat → Bool → List RenderOut
  irNew : List String → List String → Nat → Nat → Bool → List RenderOut
  obegin : String
  nbegin : String
  endTag : String
  inlineTemplate : String → Option Patch → String → String → List Comment → Nat → String
  user : String

/-! ### Row rendering (`_RenderDiffColumn`, `_RenderInlineComments`,
`_RenderDiffInternal`) -/

/-- Embedding of `_RenderDiffColumn`.  `bTag`/`eTag` are the begin/end
highlight markers passed by `_RenderDiffInternal`; `pfx` is `'old'`/`'new'`.
The `patch` argument is unused, exactly as in the source. -/
def RenderDiffColumn (patch : Option Patch) (line_valid : Bool) (tag : String)
    (ndigits lineno : Nat) (bTag eTag intra_diff : String)
    (do_ir_diff has_newline : Bool) (pfx : String) : String :=
  if line_valid then
    let cls0 := pfx ++ tag
    let lno := if tag == "equal" then rjust ndigits (decRepr lineno)
      else MarkupNumber ndigits lineno "u"
    if tag == "replace" then
      let cls_attr := if !do_ir_diff || !has_newline then cls0 ++ "1" else cls0
      "<td class=\"" ++ cls_attr ++ "\" id=\"" ++ pfx ++ "code" ++ decRepr lineno ++
        "\">" ++ (bTag ++ lno ++ " " ++ eTag ++ intra_diff) ++ "</td>"
    else
      "<td class=\"" ++ cls0 ++ "\" id=\"" ++ pfx ++ "code" ++ decRepr lineno ++
        "\">" ++ (lno ++ " " ++ intra_diff) ++ "</td>"
  else
    "<td class=\"" ++ pfx ++ "blank\"></td>"

/-- Embedding of `_RenderInlineComments`.  The expansion of
`inline_comment.html` is delegated to the environment's template collaborator
(with the `'a'`/`'b'` side code computed as in the source). -/
def RenderInlineComments (env : Env) (line_valid : Bool) (lineno : Nat)
    (data : CommentDict) (user : String) (patch : Option Patch)
    (snapshot : String) (pfx : String) : String :=
  if line_valid then
    "<td id=\"" ++ pfx ++ "-line-" ++ decRepr lineno ++ "\">" ++
      (if !(data lineno).isEmpty then
        env.inlineTemplate user patch snapshot (if pfx == "old" then "a" else "b")
          (data lineno) lineno
      else "") ++ "</td>"
  else "<td></td>"

/-- One iteration of the `for i in xrange(len(old_buff))` loop of
`_RenderDiffInternal`: produces the `(tg, ''.join(frags))` pair for one
buffered entry, including the optional debug row and the inline-comment
second row (with the `_comment` tag suffix when a visible comment is
attached to either side). -/
def RDIrow (env : Env) (ndigits : Nat) (tag : String) (do_ir_diff : Bool)
    (old_dict new_dict : CommentDict) (old_patch new_patch : Option Patch)
    (old_snapshot new_snapshot : String) (debug : Bool)
    (entry : REntry × REntry × List String) : String × String :=
  let ob := entry.1
  let nb := entry.2.1
  let frags0 := entry.2.2
  let old_valid := ob.1
  let old_lineno := ob.2.1
  let old_intra_diff := ob.2.2.1
  let old_has_newline := ob.2.2.2.1
  let old_debug_info := ob.2.2.2.2
  let new_valid := nb.1
  let new_lineno := nb.2.1
  let new_intra_diff := nb.2.2.1
  let new_has_newline := nb.2.2.2.1
  let new_debug_info := nb.2.2.2.2
  let f1 := frags0 ++
    [RenderDiffColumn old_patch old_valid tag ndigits old_lineno env.obegin env.endTag
      old_intra_diff do_ir_diff old_has_newline "old",
     RenderDiffColumn new_patch new_valid tag ndigits new_lineno env.nbegin env.endTag
      new_intra_diff do_ir_diff new_has_newline "new",
     "</tr>\n"]
  let f2 := if debug then
      f1 ++ ["<tr>",
        (match old_debug_info with
         | some d => "<td class=\"debug-info\">" ++ d.replace "\n" "<br>" ++ "</td>"
         | none => "<td></td>"),
        (match new_debug_info with
         | some d => "<td class=\"debug-info\">" ++ d.replace "\n" "<br>" ++ "</td>"
         | none => "<td></td>"),
        "</tr>\n"]
    else f1
  if old_patch.isSome || new_patch.isSome then
    let has_comment := (old_valid && !(old_dict old_lineno).isEmpty) ||
      (new_valid && !(new_dict new_lineno).isEmpty)
    let tg := if has_comment then tag ++ "_comment" else tag
    let f3 := f2 ++
      [if has_comment then "<tr class=\"inline-comments\" name=\"hook\">"
       else "<tr class=\"inline-comments\">",
       RenderInlineComments env old_valid old_lineno old_dict env.user old_patch
         old_snapshot "old",
       RenderInlineComments env new_valid new_lineno new_dict env.user new_patch
         new_snapshot "new",
       "</tr>\n"]
    (tg, joinList f3)
  else (tag, joinList f2)

/-- Embedding of `_RenderDiffInternal`: the loop over the (equal-length)
buffers and the fragment list. -/
def RenderDiffInternal (env : Env) (old_buff new_buff : List REntry)
    (ndigits : Nat) (tag : String) (frag_list : List (List String))
    (do_ir_diff : Bool) (old_dict new_dict : CommentDict)
    (old_patch new_patch : Option Patch) (old_snapshot new_snapshot : String)
    (colwidth : Nat) (debug : Bool) : List (String × String) :=
  (old_buff.zip (new_buff.zip frag_list)).map
    (RDIrow env ndigits tag do_ir_diff old_dict new_dict old_patch new_patch
      old_snapshot new_snapshot debug)

/-! ### The row generator (`_TableRowGenerator`) -/

/-- The body of `_TableRowGenerator`'s loop for one non-error operation
`(tag, old, new)`: either render each pair immediately, or buffer the whole
region, run the intra-region diff collaborator once, substitute the
per-line outputs and render the buffered pairs in order.  `rc` is the value
of `row_count` before the operation; `old1`/`new1` are the running offsets. -/
def processTriple (env : Env) (old_patch new_patch : Option Patch)
    (old_dict new_dict : CommentDict) (old_snapshot new_snapshot : String)
    (ndigits indent colwidth : Nat) (debug : Bool)
    (old1 new1 rc : Nat) (tag : String) (old new : List String) :
    List (String × String) :=
  let n := max old.length new.length
  let do_ir_diff := tag == "replace" && env.canDoIRDiff old new
  let frag0 := fun i => if i == 0 && tag != "equal" then "<tr name=\"hook\"" else "<tr"
  let frag1 := fun i => " id=\"pair-" ++ decRepr (rc + i + 1) ++ "\">"
  let oldValid := fun i => decide (old1 + i < old1 + old.length)
  let newValid := fun i => decide (new1 + i < new1 + new.length)
  let oldRaw := fun i => if oldValid i then old.getD i "" else ""
  let newRaw := fun i => if newValid i then new.getD i "" else ""
  if do_ir_diff then
    let old_buff := (List.range n).map (fun i => (oldValid i, old1 + i + 1, oldRaw i))
    let new_buff := (List.range n).map (fun i => (newValid i, new1 + i + 1, newRaw i))
    let frag_list := (List.range n).map (fun i => [frag0 i, frag1 i])
    let old_lines := old_buff.map (fun b => b.2.2)
    let new_lines := new_buff.map (fun b => b.2.2)
    let old_diff_out := env.irOld old_lines new_lines colwidth indent debug
    let new_diff_out := env.irNew old_lines new_lines colwidth indent debug
    let old_buff2 := old_buff.zipWith (fun b o => (b.1, b.2.1, o)) old_diff_out
    let new_buff2 := new_buff.zipWith (fun b o => (b.1, b.2.1, o)) new_diff_out
    RenderDiffInternal env old_buff2 new_buff2 ndigits tag frag_list do_ir_diff
      old_dict new_dict old_patch new_patch old_snapshot new_snapshot colwidth debug
  else
    (List.range n).flatMap (fun i =>
      RenderDiffInternal env
        [(oldValid i, old1 + i + 1,
          (env.fold (oldRaw i) (colwidth + indent) indent indent, true, none))]
        [(newValid i, new1 + i + 1,
          (env.fold (newRaw i) (colwidth + indent) indent indent, true, none))]
        ndigits tag [[frag0 i, frag1 i]] do_ir_diff
        old_dict new_dict old_patch new_patch old_snapshot new_snapshot colwidth debug)

/-- The `for tag, old, new in triple_iterator` loop of `_TableRowGenerator`,
threading `old_offset`, `new_offset` and `row_count`.  An `error`-prefixed
tag renders the escaped message and returns immediately. -/
def TableRowGenLoop (env : Env) (old_patch new_patch : Option Patch)
    (old_dict new_dict : CommentDict) (old_snapshot new_snapshot : String)
    (ndigits indent colwidth : Nat) (debug : Bool) :
    Nat → Nat → Nat → List Triple → List (String × String)
  | _, _, _, [] => []
  | old_offset, new_offset, rc, (tag, old, new) :: rest =>
    if strStartsWith tag "error" then
      [("error", "<tr><td><h3>" ++ cgiEscape tag ++ "</h3></td></tr>\n")]
    else
      processTriple env old_patch new_patch old_dict new_dict old_snapshot new_snapshot
        ndigits indent colwidth debug old_offset new_offset rc tag old new ++
      TableRowGenLoop env old_patch new_patch old_dict new_dict old_snapshot new_snapshot
        ndigits indent colwidth debug
        (old_offset + old.length) (new_offset + new.length)
        (rc + max old.length new.length) rest

/-- Embedding of `_TableRowGenerator`: the informational header rows, then
the operation loop.  (A Python `None` patch on the `old_patch != new_patch`
branch would raise `AttributeError` on `.lines`; that branch is only ever
reached with two real patches, via `_RenderDiff2TableRows`.) -/
def TableRowGenerator (env : Env) (old_patch : Option Patch) (old_dict : CommentDict)
    (old_max : Nat) (old_snapshot : String) (new_patch : Option Patch)
    (new_dict : CommentDict) (new_max : Nat) (new_snapshot : String)
    (triples : List Triple) (colwidth : Nat) (debug : Bool) : List (String × String) :=
  let ndigits := 1 + max (decRepr old_max).length (decRepr new_max).length
  let indent := 1 + ndigits
  let headerRows :=
    if old_patch = new_patch ∧ (old_max = 0 ∨ new_max = 0) then
      [("", "<tr><td class=\"info\">" ++ (if old_max = 0 then "(Empty)" else "") ++
        "</td><td class=\"info\">" ++ (if new_max = 0 then "(Empty)" else "") ++
        "</td></tr>")]
    else if old_patch ≠ new_patch ∧ old_patch.map Patch.lines = new_patch.map Patch.lines then
      [("", "<tr><td class=\"info\" colspan=\"2\">(Both sides are equal)</td></tr>")]
    else []
  headerRows ++ TableRowGenLoop env old_patch new_patch old_dict new_dict
    old_snapshot new_snapshot ndigits indent colwidth debug 0 0 0 triples

/-- Number of line pairs the generator numbers before stopping (all pairs of
the operations preceding the first `error`-tagged operation). -/
def genPairCount : List Triple → Nat
  | [] => 0
  | (tag, old, new) :: rest =>
    if strStartsWith tag "error" then 0
    else max old.length new.length + genPairCount rest

/-- The sequence of `pair-N` row ids embedded in a row stream, in emission
order. -/
def rowIds (rows : List (String × String)) : List Nat :=
  rows.filterMap (fun r => rowIdOf r.2)

/-! ### The collapser (`_ShortenBuffer`, `_CleanupTableRowsGenerator`) -/

/-- The scan of the head window for the last row id
(`for t in buffer[:context]: m = re.match(...); if m: last_id = int(...)`). -/
def lastIdScan (rows : List String) : Option Nat :=
  rows.foldl (fun last_id t =>
    match rowIdOf t with
    | some n => some n
    | none => last_id) none

/-- One `M_expandSkipped` anchor of the placeholder row, after `%`
substitution: `before`/`after` are the bounding row ids, `dir` the
direction code, `skipParam` the value substituted for `%(skip)d`
(which the source binds to `last_id`). -/
def mkExpandAction (before after : Nat) (dir : String) (skipParam : Nat)
    (label : String) : String :=
  "<a href=\"javascript:M_expandSkipped(" ++ decRepr before ++ ", " ++
    decRepr after ++ ", \x27" ++ dir ++ "\x27, " ++ decRepr skipParam ++ ")\">" ++
    label ++ "</a>"

/-- The expansion affordance of the placeholder row: one `Show` action when
`skip <= 10`, else `Show 10 above` and `Show 10 below`; substituted with
`before = last_id+1`, `after = last_id+skip`, `skip = last_id`. -/
def expandLinkFor (last_id skip : Nat) : String :=
  if skip ≤ 10 then
    mkExpandAction (last_id + 1) (last_id + skip) "b" last_id "Show"
  else
    mkExpandAction (last_id + 1) (last_id + skip) "t" last_id "Show 10 above" ++ " " ++
    mkExpandAction (last_id + 1) (last_id + skip) "b" last_id "Show 10 below" ++ " "

/-- The contraction placeholder row of `_ShortenBuffer`. -/
def skipRow (last_id skip : Nat) : String :=
  "<tr id=\"skip-" ++ decRepr last_id ++ "\"><td colspan=\"2\" align=\"center\" " ++
    "style=\"background:lightblue\">" ++
    "(...skipping <span id=\"skipcount-" ++ decRepr last_id ++ "\">" ++ decRepr skip ++
    "</span> matching lines...) " ++
    "<span id=\"skiplinks-" ++ decRepr last_id ++ "\">" ++ expandLinkFor last_id skip ++
    "</span></td></tr>\n"

/-- Embedding of `_ShortenBuffer`.  `none` models the Python `TypeError`
raised by `last_id+1` when no row of the head window matches the row-id
pattern (`last_id` still `None`); the `context = 0` branch mirrors
`buffer[-0:]` denoting the whole list. -/
def ShortenBuffer (buffer : List String) (context : Nat) : Option (List String) :=
  if buffer.length < 3 * context then some buffer
  else
    match lastIdScan (buffer.take context) with
    | none => none
    | some last_id =>
      let skip := buffer.length - 2 * context
      some (buffer.take context ++ [skipRow last_id skip] ++
        (if context = 0 then buffer else buffer.drop (buffer.length - context)))

/-- The loop of `_CleanupTableRowsGenerator` with its pending equal-row
buffer.  Output elements are `some text` for yielded rows and `none` for the
terminal `yield None` after an error row; an overall `none` models a
`TypeError` escaping from `_ShortenBuffer`. -/
def cleanupLoop (context : Nat) : List String → List (String × String) →
    Option (List (Option String))
  | buffer, [] =>
    if buffer.isEmpty then some []
    else (ShortenBuffer buffer context).map (fun l => l.map some)
  | buffer, (tag, text) :: rest =>
    if tag = "equal" then cleanupLoop context (buffer ++ [text]) rest
    else
      match ShortenBuffer buffer context with
      | none => none
      | some flushed =>
        if tag = "error" then
          some (flushed.map some ++ [some text, none])
        else
          match cleanupLoop context [] rest with
          | none => none
          | some tailOut => some (flushed.map some ++ some text :: tailOut)

/-- Embedding of `_CleanupTableRowsGenerator`. -/
def CleanupTableRowsGenerator (rows : List (String × String)) (context : Nat) :
    Option (List (Option String)) :=
  cleanupLoop context [] rows

/-- The full pipeline of the render entry points: `_TableRowGenerator`
followed by `_CleanupTableRowsGenerator`. -/
def FullPipeline (env : Env) (old_patch : Option Patch) (old_dict : CommentDict)
    (old_max : Nat) (old_snapshot : String) (new_patch : Option Patch)
    (new_dict : CommentDict) (new_max : Nat) (new_snapshot : String)
    (triples : List Triple) (colwidth : Nat) (debug : Bool) (context : Nat) :
    Option (List (Option String)) :=
  CleanupTableRowsGenerator
    (TableRowGenerator env old_patch old_dict old_max old_snapshot new_patch new_dict
      new_max new_snapshot triples colwidth debug) context

/-! ### Comment loading (`_RenderDiffTableRows`, `_RenderDiff2TableRows`) -/

/-- `dct.setdefault(comment.lineno, []).append(comment)` on the functional
dictionary. -/
def addComment (d : CommentDict) (c : Comment) : CommentDict :=
  fun n => if n = c.lineno then d c.lineno ++ [c] else d n

/-- The comment-loading loop of `_RenderDiffTableRows`: skip drafts of other
users, route by `comment.left` into the old/new dictionaries. -/
def buildDictsLR (requser : String) (comments : List Comment) :
    CommentDict × CommentDict :=
  comments.foldl
    (fun dicts c =>
      if c.draft && c.author != requser then dicts
      else if c.left then (addComment dicts.1 c, dicts.2)
      else (dicts.1, addComment dicts.2 c))
    (fun _ => [], fun _ => [])

/-- The comment-loading loop of `_RenderDiff2TableRows` for one side (the
datastore query already restricts to `left = FALSE`): skip drafts of other
users, group by line number. -/
def buildDictNoSide (requser : String) (comments : List Comment) : CommentDict :=
  comments.foldl
    (fun d c => if c.draft && c.author != requser then d else addComment d c)
    (fun _ => [])

/-! ### Line counts (`_ComputeLineCounts`) -/

/-- One chunk as produced by `patching.ParsePatch`:
`((old_a, old_b), (new_a, new_b), old_chunk_lines, new_chunk_lines)`.
The range ends are Python ints. -/
structure Chunk where
  oldRange : Int × Int
  newRange : Int × Int
  oldChunkLines : List String
  newChunkLines : List String

/-- Embedding of `_ComputeLineCounts`: `old_len = len(old_lines)`;
`new_len = old_len + (new_b - old_b)` of the last chunk, or `old_len` when
there are no chunks. -/
def ComputeLineCounts (old_lines : List String) (chunks : List Chunk) : Int × Int :=
  let old_len : Int := (old_lines.length : Int)
  match chunks.getLast? with
  | none => (old_len, old_len)
  | some c => (old_len, old_len + (c.newRange.2 - c.oldRange.2))

/-- Embedding of `_RenderDiffTableRows` up to the generator: load and filter
comments when a patch is present, compute the line counts, and run the
generator.  `triples` stands for the external `patching.PatchChunks(old_lines,
chunks)` iterator. -/
def RenderDiffTableRowsM (env : Env) (requser : String) (comments : List Comment)
    (old_lines : List String) (chunks : List Chunk) (patch : Option Patch)
    (triples : List Triple) (colwidth : Nat) (debug : Bool) : List (String × String) :=
  let dicts := if patch.isSome then buildDictsLR requser comments
    else ((fun _ => []), (fun _ => []))
  let counts := ComputeLineCounts old_lines chunks
  TableRowGenerator env patch dicts.1 counts.1.toNat "old" patch dicts.2
    counts.2.toNat "new" triples colwidth debug

/-- Embedding of `_RenderDiff2TableRows` up to the generator: the two
per-patch comment queries (already `left = FALSE`), draft filtering, and the
generator call with `len(lines)+1` as each side's count and `'new'` as both
snapshot tags.  `triples` stands for the external
`_GenerateTriples(old_lines, new_lines)` (difflib) iterator. -/
def RenderDiff2TableRowsM (env : Env) (requser : String)
    (oldComments newComments : List Comment) (old_lines : List String)
    (old_patch : Patch) (new_lines : List String) (new_patch : Patch)
    (triples : List Triple) (colwidth : Nat) (debug : Bool) : List (String × String) :=
  TableRowGenerator env (some old_patch) (buildDictNoSide requser oldComments)
    (old_lines.length + 1) "new" (some new_patch) (buildDictNoSide requser newComments)
    (new_lines.length + 1) "new" triples colwidth debug

/-! ### URL construction and base fetching (`_MakeUrl`, `FetchBase`) -/

/-- Split a URL at the first `://` (modelled from the spec's URL forms for
the external `urlparse.urlparse` collaborator, adequate for
`scheme://host/path` URLs). -/
def findSchemeSplit : List Char → Option (List Char × List Char)
  | [] => none
  | ':' :: '/' :: '/' :: rest => some ([], rest)
  | c :: rest => (findSchemeSplit rest).map (fun p => (c :: p.1, p.2))

/-- Modelled from the spec: the `(scheme, netloc, path)` projection of
`urlparse.urlparse` for `scheme://host/path` URLs (query/params/fragment do
not occur in the URLs the engine builds). -/
def urlparse3 (base : String) : String × String × String :=
  match findSchemeSplit base.data with
  | none => ("", "", base)
  | some (scheme, rest) =>
    let netloc := rest.takeWhile (fun c => c ≠ '/')
    (⟨scheme⟩, ⟨netloc⟩, ⟨rest.drop netloc.length⟩)

/-- Python `s[n:]` character slicing (reducible model of `String.drop`). -/
def strDrop (s : String) (n : Nat) : String := ⟨s.data.drop n⟩

/-- Embedding of `_MakeUrl`.  `none` models the `assert` failures on the
googlecode branch (no revision, or a path not starting with `/svn/`). -/
def MakeUrl (base filename : String) (rev : Option Nat) : Option String :=
  let parsed := urlparse3 base
  let scheme := parsed.1
  let netloc := parsed.2.1
  let path := parsed.2.2
  if strEndsWith netloc ".googlecode.com" then
    match rev with
    | none => none
    | some r =>
      if strStartsWith path "/svn/" then
        some (scheme ++ "://" ++ netloc ++ "/svn-history/r" ++ decRepr r ++ "/" ++
          strDrop path 5 ++ "/" ++ filename)
      else none
  else
    some ((if strEndsWith base "/" then base else base ++ "/") ++ filename ++
      (match rev with
       | some r => "?rev=" ++ decRepr r
       | none => ""))

/-- External collaborators of `FetchBase`: the `db.Link` validation of the
base URL and the single synchronous `urlfetch.fetch` call, which either
raises (`Except.error` with the formatted exception text) or returns a
status code and body. -/
structure FetchEnv where
  linkValid : String → Bool
  fetch : String → Except String (Nat × String)

/-- Result of `FetchBase`: a `models.Content` (text plus `is_complete`), a
raised `FetchError` with its message, or a non-`FetchError` crash
(the `assert` in `_MakeUrl`). -/
inductive FetchResult where
  | content (text : String) (isComplete : Bool)
  | fetchError (msg : String)
  | crash
deriving DecidableEq

/-- Whether a `FetchBase` outcome is a raised `FetchError`. -/
def isFetchError : FetchResult → Bool
  | .fetchError _ => true
  | _ => false

/-- Embedding of `FetchBase`.  `rev` is the parsed revision
(`patching.ParseRevision`); `some 0` is the new-file sentinel.  `_ToText`
is the identity on already-decoded model strings. -/
def FetchBase (env : FetchEnv) (base filename : String) (rev : Option Nat) :
    FetchResult :=
  if rev = some 0 then .content "" false
  else if !env.linkValid base then .fetchError ("Invalid base URL: " ++ base)
  else
    match MakeUrl base filename rev with
    | none => .crash
    | some url =>
      match env.fetch url with
      | .error e => .fetchError ("Error fetching " ++ url ++ ": " ++ e)
      | .ok sb =>
        if sb.1 ≠ 200 then
          .fetchError ("Error fetching " ++ url ++ ": HTTP status " ++ decRepr sb.1)
        else .content sb.2 true

/-! ### Concrete instances used by witnesses and counterexamples -/

/-- A concrete collaborator environment: no intra-region diffing, identity
folding, unit-length-preserving intra-region rendering, empty template
output. -/
def simpleEnv : Env where
  canDoIRDiff := fun _ _ => false
  fold := fun s _ _ _ => s
  irOld := fun ol _ _ _ _ => ol.map (fun s => (s, true, none))
  irNew := fun _ nl _ _ _ => nl.map (fun s => (s, true, none))
  obegin := "<b>"
  nbegin := "<b>"
  endTag := "</b>"
  inlineTemplate := fun _ _ _ _ _ _ => ""
  user := "alice"

/-- The empty comment lookup. -/
def emptyDict : CommentDict := fun _ => []

/-- The generator run on two distinct patches with identical lines and one
equal operation (used to test the both-sides-equal behaviour). -/
def c3Gen : List (String × String) :=
  TableRowGenerator simpleEnv (some ⟨1, ["l"]⟩) emptyDict 2 "new"
    (some ⟨2, ["l"]⟩) emptyDict 2 "new" [("equal", ["a"], ["a"])] 80 false

/-- A 150-line equal operation followed by an error operation (a long
matching run immediately before an in-stream error). -/
def c1Triples : List Triple :=
  [("equal", List.replicate 150 "x", List.replicate 150 "x"), ("error", [], [])]

/-- The generator output for `c1Triples`. -/
def c1Gen : List (String × String) :=
  TableRowGenerator simpleEnv none emptyDict 150 "old" none emptyDict 150 "new"
    c1Triples 80 false

/-- The full pipeline output for `c1Triples` at the default context 50. -/
def c1Pipe : Option (List (Option String)) := CleanupTableRowsGenerator c1Gen 50

/-- The 75th generated row (inside the run elided by the collapser). -/
def c1MidRow : String := (c1Gen.getD 74 ("", "")).2

/-- A buffer of 200 consecutive equal rendered rows with row ids 1..200. -/
def c2Buffer : List String :=
  (List.range 200).map (fun j => "<tr id=\"pair-" ++ decRepr (j + 1) ++ "\">x</tr>\n")

/-! ### Lemmas about decimal rendering -/

theorem natLitAux_zero (n : Nat) (acc : List Char) :
    natLitAux 0 n acc = Nat.digitChar (n % 10) :: acc := rfl

theorem natLitAux_succ (f n : Nat) (acc : List Char) :
    natLitAux (f + 1) n acc = if n < 10 then Nat.digitChar n :: acc
      else natLitAux f (n / 10) (Nat.digitChar (n % 10) :: acc) := rfl

theorem natLitAux_acc (fuel : Nat) : ∀ n acc,
    natLitAux fuel n acc = natLitAux fuel n [] ++ acc := by
  induction fuel with
  | zero => intro n acc; rfl
  | succ f ih =>
    intro n acc
    by_cases h : n < 10
    · rw [natLitAux_succ, natLitAux_succ, if_pos h, if_pos h]; rfl
    · rw [natLitAux_succ, natLitAux_succ, if_neg h, if_neg h,
        ih (n / 10) (Nat.digitChar (n % 10) :: acc), ih (n / 10) [Nat.digitChar (n % 10)]]
      simp

theorem natLitAux_fuel (f₁ : Nat) : ∀ f₂ n acc, n ≤ f₁ → n ≤ f₂ →
    natLitAux f₁ n acc = natLitAux f₂ n acc := by
  induction f₁ with
  | zero =>
    intro f₂ n acc h₁ h₂
    interval_cases n
    cases f₂ with
    | zero => rfl
    | succ f => rfl
  | succ f ih =>
    intro f₂ n acc h₁ h₂
    by_cases h : n < 10
    · cases f₂ with
      | zero =>
        interval_cases n
        rfl
      | succ g => rw [natLitAux_succ, natLitAux_succ, if_pos h, if_pos h]
    · cases f₂ with
      | zero => omega
      | succ g =>
        rw [natLitAux_succ, natLitAux_succ, if_neg h, if_neg h]
        exact ih g (n / 10) _ (by omega) (by omega)

theorem natLit_eq (n : Nat) :
    natLit n = if n < 10 then [Nat.digitChar n]
      else natLit (n / 10) ++ [Nat.digitChar (n % 10)] := by
  by_cases h : n < 10
  · rw [if_pos h]
    cases n with
    | zero => rfl
    | succ k => rw [natLit, natLitAux_succ, if_pos h]
  · rw [if_neg h]
    cases n with
    | zero => omega
    | succ k =>
      rw [natLit, natLitAux_succ, if_neg h, natLitAux_acc,
        natLitAux_fuel k ((k + 1) / 10) ((k + 1) / 10) [] (by omega) (le_refl _)]
      rfl

theorem digitChar_isDigit {d : Nat} (h : d < 10) :
    (Nat.digitChar d).isDigit = true := by
  interval_cases d <;> decide

theorem digitChar_val {d : Nat} (h : d < 10) :
    (Nat.digitChar d).toNat - 48 = d := by
  interval_cases d <;> decide

theorem natLit_ne_nil (n : Nat) : natLit n ≠ [] := by
  rw [natLit_eq]
  split <;> simp

theorem natLit_digits (n : Nat) : ∀ c ∈ natLit n, c.isDigit = true := by
  induction n using Nat.strong_induction_on with
  | _ n ih =>
    rw [natLit_eq]
    split
    · next h => simp [digitChar_isDigit h]
    · next h =>
      intro c hc
      rcases List.mem_append.1 hc with h1 | h1
      · exact ih (n / 10) (by omega) c h1
      · simp at h1
        subst h1
        exact digitChar_isDigit (Nat.mod_lt _ (by omega))

theorem digitsToNat_append (xs : List Char) : ∀ a ys,
    digitsToNat a (xs ++ ys) = digitsToNat (digitsToNat a xs) ys := by
  induction xs with
  | nil => intro a ys; rfl
  | cons c cs ih => intro a ys; exact ih (a * 10 + (c.toNat - 48)) ys

theorem digitsToNat_natLit (n : Nat) : digitsToNat 0 (natLit n) = n := by
  induction n using Nat.strong_induction_on with
  | _ n ih =>
    rw [natLit_eq]
    split
    · next h =>
      show 0 * 10 + ((Nat.digitChar n).toNat - 48) = n
      rw [digitChar_val h]
      omega
    · next h =>
      rw [digitsToNat_append, ih (n / 10) (by omega)]
      show (n / 10) * 10 + ((Nat.digitChar (n % 10)).toNat - 48) = n
      rw [digitChar_val (Nat.mod_lt n (by omega))]
      omega

/-! ### Lemmas about the row-id parser -/

theorem dropLit_self (p : List Char) : ∀ rest, dropLit p (p ++ rest) = some rest := by
  induction p with
  | nil => intro rest; rfl
  | cons c cs ih => intro rest; simp [dropLit, ih]

theorem dropLit_shared_mismatch (shared : List Char) {a b : Char} (h : b ≠ a)
    (ps cs : List Char) :
    dropLit (shared ++ a :: ps) (shared ++ b :: cs) = none := by
  induction shared with
  | nil => simp [dropLit, h]
  | cons d ds ih => simp [dropLit, ih]

theorem takeDigits_digits_quote {ds : List Char} (h : ∀ c ∈ ds, c.isDigit = true) :
    ∀ rest, takeDigits (ds ++ '"' :: rest) = (ds, '"' :: rest) := by
  induction ds with
  | nil => intro rest; simp [takeDigits]
  | cons c cs ih =>
    intro rest
    have hc : c.isDigit = true := h c (by simp)
    simp [takeDigits, hc, ih (fun d hd => h d (by simp [hd]))]

theorem parseRowId_hook (m : Nat) (rest : List Char) :
    parseRowId (hookLit ++ (natLit m ++ '"' :: '>' :: rest)) = some m := by
  unfold parseRowId
  rw [dropLit_self]
  simp only
  rw [show natLit m ++ '"' :: '>' :: rest = (natLit m ++ '"' :: ('>' :: rest)) by simp,
    takeDigits_digits_quote (natLit_digits m)]
  have hne := natLit_ne_nil m
  cases hn : natLit m with
  | nil => exact absurd hn hne
  | cons c cs =>
    simp only
    rw [show ('"' :: '>' :: rest : List Char) = ['"', '>'] ++ rest by simp, dropLit_self]
    simp [← hn, digitsToNat_natLit]

theorem parseRowId_plain (m : Nat) (rest : List Char) :
    parseRowId (plainLit ++ (natLit m ++ '"' :: '>' :: rest)) = some m := by
  unfold parseRowId
  have hmis : dropLit hookLit (plainLit ++ (natLit m ++ '"' :: '>' :: rest)) = none := by
    have h1 : hookLit = "<tr ".data ++ 'n' :: "ame=\"hook\" id=\"pair-".data := by decide
    have h2 : plainLit ++ (natLit m ++ '"' :: '>' :: rest)
        = "<tr ".data ++ 'i' :: ("d=\"pair-".data ++ (natLit m ++ '"' :: '>' :: rest)) := by
      have : plainLit = "<tr ".data ++ 'i' :: "d=\"pair-".data := by decide
      simp [this]
    rw [h1, h2]
    exact dropLit_shared_mismatch _ (by decide) _ _
  rw [hmis, dropLit_self]
  simp only
  rw [show natLit m ++ '"' :: '>' :: rest = (natLit m ++ '"' :: ('>' :: rest)) by simp,
    takeDigits_digits_quote (natLit_digits m)]
  have hne := natLit_ne_nil m
  cases hn : natLit m with
  | nil => exact absurd hn hne
  | cons c cs =>
    simp only
    rw [show ('"' :: '>' :: rest : List Char) = ['"', '>'] ++ rest by simp, dropLit_self]
    simp [← hn, digitsToNat_natLit]

theorem parseRowId_tr_gt (xs : List Char) :
    parseRowId ('<' :: 't' :: 'r' :: '>' :: xs) = none := by
  unfold parseRowId
  have h1 : dropLit hookLit ('<' :: 't' :: 'r' :: '>' :: xs) = none := by
    have hh : hookLit = "<tr".data ++ ' ' :: "name=\"hook\" id=\"pair-".data := by decide
    have ht : ('<' :: 't' :: 'r' :: '>' :: xs : List Char) = "<tr".data ++ '>' :: xs := by
      rfl
    rw [hh, ht]
    exact dropLit_shared_mismatch _ (by decide) _ _
  have h2 : dropLit plainLit ('<' :: 't' :: 'r' :: '>' :: xs) = none := by
    have hh : plainLit = "<tr".data ++ ' ' :: "id=\"pair-".data := by decide
    have ht : ('<' :: 't' :: 'r' :: '>' :: xs : List Char) = "<tr".data ++ '>' :: xs := by
      rfl
    rw [hh, ht]
    exact dropLit_shared_mismatch _ (by decide) _ _
  rw [h1, h2]

/-! ### Lemmas about the collapser -/

theorem ShortenBuffer_short {buffer : List String} {context : Nat}
    (h : buffer.length < 3 * context) : ShortenBuffer buffer context = some buffer := by
  unfold ShortenBuffer
  rw [if_pos h]

theorem ShortenBuffer_contract {buffer : List String} {context last_id : Nat}
    (hc : 1 ≤ context) (hlen : 3 * context ≤ buffer.length)
    (hscan : lastIdScan (buffer.take context) = some last_id) :
    ShortenBuffer buffer context =
      some (buffer.take context ++ [skipRow last_id (buffer.length - 2 * context)] ++
        buffer.drop (buffer.length - context)) := by
  unfold ShortenBuffer
  rw [if_neg (by omega), hscan]
  have h0 : ¬ context = 0 := by omega
  simp [h0]

theorem ShortenBuffer_noAnchor {buffer : List String} {context : Nat}
    (hlen : 3 * context ≤ buffer.length)
    (hscan : lastIdScan (buffer.take context) = none) :
    ShortenBuffer buffer context = none := by
  unfold ShortenBuffer
  rw [if_neg (by omega), hscan]

theorem lastIdScan_foldl (l : List String) : ∀ acc : Option Nat,
    ((l.foldl (fun last_id t =>
        match rowIdOf t with
        | some n => some n
        | none => last_id) acc).isSome = true)
      ↔ (acc.isSome = true ∨ ∃ t ∈ l, (rowIdOf t).isSome = true) := by
  induction l with
  | nil => intro acc; simp
  | cons x xs ih =>
    intro acc
    rw [List.foldl_cons, ih]
    cases hx : rowIdOf x <;> simp [hx]

theorem lastIdScan_isSome_iff (l : List String) :
    ((lastIdScan l).isSome = true) ↔ ∃ t ∈ l, (rowIdOf t).isSome = true := by
  unfold lastIdScan
  rw [lastIdScan_foldl]
  simp

/-! ### Lemmas about comment loading -/

theorem foldl_filter_invisible {α : Type _} (u : String) (step : α → Comment → α)
    (hstep : ∀ d c, (c.draft && c.author != u) = true → step d c = d) :
    ∀ (l : List Comment) (d : α),
      (l.filter (fun c => !(c.draft && c.author != u))).foldl step d = l.foldl step d := by
  intro l
  induction l with
  | nil => intro d; rfl
  | cons c cs ih =>
    intro d
    rw [List.foldl_cons]
    by_cases hv : (c.draft && c.author != u) = true
    · rw [List.filter_cons_of_neg (by simp [hv]), ih, hstep d c hv]
    · have hv' : (c.draft && c.author != u) = false := by simpa using hv
      rw [List.filter_cons_of_pos (by simp [hv']), List.foldl_cons, ih]

theorem buildDictsLR_filter (u : String) (comments : List Comment) :
    buildDictsLR u (comments.filter (fun c => !(c.draft && c.author != u)))
      = buildDictsLR u comments := by
  unfold buildDictsLR
  exact foldl_filter_invisible u _ (fun d c hv => if_pos hv) comments _

theorem buildDictNoSide_filter (u : String) (comments : List Comment) :
    buildDictNoSide u (comments.filter (fun c => !(c.draft && c.author != u)))
      = buildDictNoSide u comments := by
  unfold buildDictNoSide
  exact foldl_filter_invisible u _ (fun d c hv => if_pos hv) comments _

theorem buildDictsLR_apply (u : String) : ∀ (l : List Comment)
    (d : CommentDict × CommentDict) (n : Nat),
    ((l.foldl (fun dicts c =>
        if c.draft && c.author != u then dicts
        else if c.left then (addComment dicts.1 c, dicts.2)
        else (dicts.1, addComment dicts.2 c)) d).1 n
      = d.1 n ++ l.filter (fun c => !(c.draft && c.author != u) && c.left && c.lineno == n))
    ∧ ((l.foldl (fun dicts c =>
        if c.draft && c.author != u then dicts
        else if c.left then (addComment dicts.1 c, dicts.2)
        else (dicts.1, addComment dicts.2 c)) d).2 n
      = d.2 n ++ l.filter (fun c => !(c.draft && c.author != u) && !c.left && c.lineno == n)) := by
  intro l
  induction l with
  | nil => intro d n; exact ⟨(List.append_nil _).symm, (List.append_nil _).symm⟩
  | cons c cs ih =>
    intro d n
    rw [List.foldl_cons]
    by_cases hv : (c.draft && c.author != u) = true
    · rw [if_pos hv]
      exact ⟨by rw [(ih d n).1, List.filter_cons_of_neg (by simp [hv])],
        by rw [(ih d n).2, List.filter_cons_of_neg (by simp [hv])]⟩
    · have hv' : (c.draft && c.author != u) = false := by simpa using hv
      rw [if_neg hv]
      by_cases hl : c.left = true
      · rw [if_pos hl]
        constructor
        · rw [(ih (addComment d.1 c, d.2) n).1]
          by_cases hn : c.lineno = n
          · subst hn
            rw [List.filter_cons_of_pos (by simp [hv', hl])]
            simp [addComment]
          · have hn' : ¬ n = c.lineno := fun h => hn h.symm
            rw [List.filter_cons_of_neg (by simp [hn])]
            simp only [addComment]
            rw [if_neg hn']
        · rw [(ih (addComment d.1 c, d.2) n).2,
            List.filter_cons_of_neg (by simp [hl])]
      · have hl' : c.left = false := by simpa using hl
        rw [if_neg hl]
        constructor
        · rw [(ih (d.1, addComment d.2 c) n).1,
            List.filter_cons_of_neg (by simp [hl'])]
        · rw [(ih (d.1, addComment d.2 c) n).2]
          by_cases hn : c.lineno = n
          · subst hn
            rw [List.filter_cons_of_pos (by simp [hv', hl'])]
            simp [addComment]
          · have hn' : ¬ n = c.lineno := fun h => hn h.symm
            rw [List.filter_cons_of_neg (by simp [hn])]
            simp only [addComment]
            rw [if_neg hn']

theorem buildDictNoSide_apply (u : String) : ∀ (l : List Comment)
    (d : CommentDict) (n : Nat),
    (l.foldl (fun d c => if c.draft && c.author != u then d else addComment d c) d) n
      = d n ++ l.filter (fun c => !(c.draft && c.author != u) && c.lineno == n) := by
  intro l
  induction l with
  | nil => intro d n; exact (List.append_nil _).symm
  | cons c cs ih =>
    intro d n
    rw [List.foldl_cons]
    by_cases hv : (c.draft && c.author != u) = true
    · rw [if_pos hv, ih d n, List.filter_cons_of_neg (by simp [hv])]
    · have hv' : (c.draft && c.author != u) = false := by simpa using hv
      rw [if_neg hv, ih (addComment d c) n]
      by_cases hn : c.lineno = n
      · subst hn
        rw [List.filter_cons_of_pos (by simp [hv'])]
        simp [addComment]
      · have hn' : ¬ n = c.lineno := fun h => hn h.symm
        rw [List.filter_cons_of_neg (by simp [hn])]
        simp only [addComment]
        rw [if_neg hn']

/-! ## Claim theorems -/

/-- **C2**: for every buffer of consecutive equal rows and every context: a
buffer shorter than `3 * context` passes through `_ShortenBuffer` unchanged,
element for element and in order; otherwise the collapser yields the first
`context` rows, one placeholder row, and the last `context` rows, eliding
the middle; for `context = 50` and a buffer of exactly 200 equal rows it
yields 50 head rows, 1 placeholder, 50 tail rows, and the placeholder
displays a skip count of exactly 100. -/
theorem C2_equal_run_contraction :
    (∀ (buffer : List String) (context : Nat), buffer.length < 3 * context →
      ShortenBuffer buffer context = some buffer)
    ∧ (∀ (buffer : List String) (context last_id : Nat),
        1 ≤ context → 3 * context ≤ buffer.length →
        lastIdScan (buffer.take context) = some last_id →
        ShortenBuffer buffer context =
          some (buffer.take context ++
            [skipRow last_id (buffer.length - 2 * context)] ++
            buffer.drop (buffer.length - context)))
    ∧ (ShortenBuffer c2Buffer 50 =
        some (c2Buffer.take 50 ++
          ["<tr id=\"skip-50\"><td colspan=\"2\" align=\"center\" style=\"background:lightblue\">(...skipping <span id=\"skipcount-50\">100</span> matching lines...) <span id=\"skiplinks-50\"><a href=\"javascript:M_expandSkipped(51, 150, \x27t\x27, 50)\">Show 10 above</a> <a href=\"javascript:M_expandSkipped(51, 150, \x27b\x27, 50)\">Show 10 below</a> </span></td></tr>\n"] ++
          c2Buffer.drop 150)
        ∧ c2Buffer.length = 200 ∧ (c2Buffer.take 50).length = 50
        ∧ (c2Buffer.drop 150).length = 50) :=
  ⟨fun _ _ h => ShortenBuffer_short h,
   fun _ _ _ hc hlen hscan => ShortenBuffer_contract hc hlen hscan,
   by decide, by decide, by decide, by decide⟩

/-- Witness for C2 at concrete inputs: a short buffer passes through
unchanged, and a 3-row buffer with `context = 1` contracts to
head/placeholder/tail. -/
theorem C2_witness :
    ShortenBuffer ["r"] 1 = some ["r"]
    ∧ ShortenBuffer ["<tr id=\"pair-7\">x", "y", "z"] 1 =
        some ((["<tr id=\"pair-7\">x", "y", "z"] : List String).take 1 ++
          [skipRow 7 1] ++
          (["<tr id=\"pair-7\">x", "y", "z"] : List String).drop 2) :=
  ⟨C2_equal_run_contraction.1 ["r"] 1 (by decide),
   C2_equal_run_contraction.2.1 ["<tr id=\"pair-7\">x", "y", "z"] 1 7
     (by decide) (by decide) (by decide)⟩

/-- **C4**: a contracted run's placeholder carries a single `Show` action
when the skip count is at most 10 and otherwise the two actions
`Show 10 above` / `Show 10 below`, each built (via `mkExpandAction`) from
`before = last_id + 1` and `after = last_id + skip` as the bounding row ids,
with the `%(skip)d` slot of the action substituted with the anchor
`last_id`. -/
theorem C4_expansion_affordance (buffer : List String) (context last_id : Nat)
    (hc : 1 ≤ context) (hlen : 3 * context ≤ buffer.length)
    (hscan : lastIdScan (buffer.take context) = some last_id) :
    ∃ before after : String,
      ShortenBuffer buffer context =
        some (buffer.take context ++
          [before ++
            (if buffer.length - 2 * context ≤ 10 then
              mkExpandAction (last_id + 1) (last_id + (buffer.length - 2 * context))
                "b" last_id "Show"
             else
              mkExpandAction (last_id + 1) (last_id + (buffer.length - 2 * context))
                "t" last_id "Show 10 above" ++ " " ++
              mkExpandAction (last_id + 1) (last_id + (buffer.length - 2 * context))
                "b" last_id "Show 10 below" ++ " ") ++ after] ++
          buffer.drop (buffer.length - context)) := by
  refine ⟨"<tr id=\"skip-" ++ decRepr last_id ++
    "\"><td colspan=\"2\" align=\"center\" " ++ "style=\"background:lightblue\">" ++
    "(...skipping <span id=\"skipcount-" ++ decRepr last_id ++ "\">" ++
    decRepr (buffer.length - 2 * context) ++ "</span> matching lines...) " ++
    "<span id=\"skiplinks-" ++ decRepr last_id ++ "\">", "</span></td></tr>\n", ?_⟩
  rw [ShortenBuffer_contract hc hlen hscan]
  have : skipRow last_id (buffer.length - 2 * context) =
      ("<tr id=\"skip-" ++ decRepr last_id ++
        "\"><td colspan=\"2\" align=\"center\" " ++ "style=\"background:lightblue\">" ++
        "(...skipping <span id=\"skipcount-" ++ decRepr last_id ++ "\">" ++
        decRepr (buffer.length - 2 * context) ++ "</span> matching lines...) " ++
        "<span id=\"skiplinks-" ++ decRepr last_id ++ "\">") ++
      expandLinkFor last_id (buffer.length - 2 * context) ++ "</span></td></tr>\n" := by
    simp [skipRow, String.append_assoc]
  rw [this]
  unfold expandLinkFor
  by_cases h10 : buffer.length - 2 * context ≤ 10 <;>
    simp [h10, String.append_assoc]

/-- Witness for C4: the contraction of a concrete 3-row buffer at
`context = 1` (skip count 1, single action). -/
theorem C4_witness :
    ∃ before after : String,
      ShortenBuffer ["<tr id=\"pair-7\">x", "y", "z"] 1 =
        some ((["<tr id=\"pair-7\">x", "y", "z"] : List String).take 1 ++
          [before ++
            (if (["<tr id=\"pair-7\">x", "y", "z"] : List String).length - 2 * 1 ≤ 10 then
              mkExpandAction (7 + 1)
                (7 + ((["<tr id=\"pair-7\">x", "y", "z"] : List String).length - 2 * 1))
                "b" 7 "Show"
             else
              mkExpandAction (7 + 1)
                (7 + ((["<tr id=\"pair-7\">x", "y", "z"] : List String).length - 2 * 1))
                "t" 7 "Show 10 above" ++ " " ++
              mkExpandAction (7 + 1)
                (7 + ((["<tr id=\"pair-7\">x", "y", "z"] : List String).length - 2 * 1))
                "b" 7 "Show 10 below" ++ " ") ++ after] ++
          (["<tr id=\"pair-7\">x", "y", "z"] : List String).drop
            ((["<tr id=\"pair-7\">x", "y", "z"] : List String).length - 1)) :=
  C4_expansion_affordance ["<tr id=\"pair-7\">x", "y", "z"] 1 7
    (by decide) (by decide) (by decide)

/-- **C10**: when `_ShortenBuffer` contracts (`3 * context ≤ length`), the
anchor scan succeeds exactly when some row of the head window matches the
`pair-N` pattern; with an anchor the contraction output (including the
`anchor + 1` / `anchor + skip` arithmetic inside `skipRow`) is well defined,
and without one the step fails (`none`, the Python `TypeError` on
`last_id + 1`) instead of producing a placeholder. -/
theorem C10_contraction_anchor (buffer : List String) (context : Nat)
    (hlen : 3 * context ≤ buffer.length) :
    (((lastIdScan (buffer.take context)).isSome = true) ↔
      ∃ t ∈ buffer.take context, (rowIdOf t).isSome = true)
    ∧ (lastIdScan (buffer.take context) = none → ShortenBuffer buffer context = none)
    ∧ (∀ last_id, lastIdScan (buffer.take context) = some last_id →
        ShortenBuffer buffer context =
          some (buffer.take context ++
            [skipRow last_id (buffer.length - 2 * context)] ++
            (if context = 0 then buffer else buffer.drop (buffer.length - context)))) := by
  refine ⟨lastIdScan_isSome_iff _, fun h => ShortenBuffer_noAnchor hlen h, ?_⟩
  intro last_id ha
  unfold ShortenBuffer
  rw [if_neg (by omega), ha]

/-- Witness for C10: on a 3-row buffer at `context = 1` whose head row
carries `pair-7`, the scan finds the anchor and the contraction succeeds;
on an id-free buffer the contraction fails. -/
theorem C10_witness :
    ShortenBuffer ["<tr id=\"pair-7\">x", "y", "z"] 1 =
      some ((["<tr id=\"pair-7\">x", "y", "z"] : List String).take 1 ++
        [skipRow 7 1] ++
        (if (1 : Nat) = 0 then ["<tr id=\"pair-7\">x", "y", "z"] else
          (["<tr id=\"pair-7\">x", "y", "z"] : List String).drop 2))
    ∧ ShortenBuffer ["a", "b", "c"] 1 = none :=
  ⟨by
    have h := (C10_contraction_anchor ["<tr id=\"pair-7\">x", "y", "z"] 1
      (by decide)).2.2 7 (by decide)
    simpa using h,
   (C10_contraction_anchor ["a", "b", "c"] 1 (by decide)).2.1 (by decide)⟩

/-- **C7**: `_ComputeLineCounts` returns `oldCount` equal to the literal
length of the old list, and `newCount` equal to `oldCount` plus the
difference of the range ends of the last chunk, or `oldCount` for an empty
chunk list; it is total and an empty chunk list yields unchanged counts. -/
theorem C7_compute_line_counts (old_lines : List String) (chunks : List Chunk) :
    (ComputeLineCounts old_lines chunks).1 = (old_lines.length : Int)
    ∧ (chunks = [] →
        ComputeLineCounts old_lines chunks =
          ((old_lines.length : Int), (old_lines.length : Int)))
    ∧ (∀ c, chunks.getLast? = some c →
        (ComputeLineCounts old_lines chunks).2 =
          (old_lines.length : Int) + (c.newRange.2 - c.oldRange.2)) := by
  unfold ComputeLineCounts
  cases h : chunks.getLast? with
  | none => simp
  | some c =>
    refine ⟨rfl, ?_, ?_⟩
    · rintro rfl
      simp at h
    · intro c' hc'
      injection hc' with hcc
      subst hcc
      rfl

/-- Witness for C7: concrete evaluations with no chunk and with one chunk
(last chunk `(10, 12) / (10, 15)`, so the new count gains 3). -/
theorem C7_witness :
    ComputeLineCounts ["a", "b"] [] = ((2 : Int), (2 : Int))
    ∧ (ComputeLineCounts ["a", "b"] [⟨(10, 12), (10, 15), [], []⟩]).2 =
        (2 : Int) + ((15 : Int) - 12) :=
  ⟨(C7_compute_line_counts ["a", "b"] []).2.1 rfl,
   (C7_compute_line_counts ["a", "b"] [⟨(10, 12), (10, 15), [], []⟩]).2.2
     ⟨(10, 12), (10, 15), [], []⟩ rfl⟩

/-- **C9**: `_MakeUrl` on the googlecode base
`https://x.googlecode.com/svn/proj` with filename `a.py` and revision 5
yields exactly `https://x.googlecode.com/svn-history/r5/proj/a.py`; for a
non-googlecode base the result is the base plus the filename with a `/`
inserted when the base does not already end in one, suffixed `?rev=<rev>`
exactly when a revision is given. -/
theorem C9_make_url :
    MakeUrl "https://x.googlecode.com/svn/proj" "a.py" (some 5) =
      some "https://x.googlecode.com/svn-history/r5/proj/a.py"
    ∧ (∀ (base filename : String) (rev : Option Nat),
        strEndsWith (urlparse3 base).2.1 ".googlecode.com" = false →
        MakeUrl base filename rev =
          some ((if strEndsWith base "/" then base else base ++ "/") ++ filename ++
            (match rev with
             | some r => "?rev=" ++ decRepr r
             | none => ""))) := by
  constructor
  · decide
  · intro base filename rev h
    simp only [MakeUrl, h]
    rfl

/-- Witness for C9: a non-googlecode base without trailing slash and with a
revision gets `/` and `?rev=3`. -/
theorem C9_witness :
    MakeUrl "http://svn.python.org/view" "f.py" (some 3) =
      some ((if strEndsWith "http://svn.python.org/view" "/" then
          "http://svn.python.org/view"
        else "http://svn.python.org/view" ++ "/") ++ "f.py" ++
        (match (some 3 : Option Nat) with
         | some r => "?rev=" ++ decRepr r
         | none => "")) :=
  C9_make_url.2 "http://svn.python.org/view" "f.py" (some 3) (by decide)

/-- **C8**: `FetchBase` with parsed revision 0 returns empty content and
consults no collaborator (its result is independent of the fetch
environment); otherwise it raises a `FetchError` exactly when the base URL
is invalid, the single fetch attempt raises, or the response status is not
200; and the result depends on the transport only through the single
constructed URL (one attempt, no retry). -/
theorem C8_fetch_base :
    (∀ (env₁ env₂ : FetchEnv) (base filename : String),
      FetchBase env₁ base filename (some 0) = FetchResult.content "" false
      ∧ FetchBase env₁ base filename (some 0) = FetchBase env₂ base filename (some 0))
    ∧ (∀ (env : FetchEnv) (base filename : String) (rev : Option Nat), rev ≠ some 0 →
        (isFetchError (FetchBase env base filename rev) = true ↔
          (env.linkValid base = false
            ∨ ∃ url, MakeUrl base filename rev = some url ∧
                ((∃ e, env.fetch url = .error e)
                  ∨ ∃ st body, env.fetch url = .ok (st, body) ∧ st ≠ 200))))
    ∧ (∀ (env₁ env₂ : FetchEnv) (base filename : String) (rev : Option Nat),
        env₁.linkValid base = env₂.linkValid base →
        (∀ url, MakeUrl base filename rev = some url → env₁.fetch url = env₂.fetch url) →
        FetchBase env₁ base filename rev = FetchBase env₂ base filename rev) := by
  refine ⟨fun env₁ env₂ base filename => ⟨rfl, rfl⟩, ?_, ?_⟩
  · intro env base filename rev hrev
    by_cases hl : env.linkValid base
    · cases hu : MakeUrl base filename rev with
      | none => simp [FetchBase, isFetchError, hrev, hl, hu]
      | some url =>
        cases hf : env.fetch url with
        | error e => simp [FetchBase, isFetchError, hrev, hl, hu, hf]
        | ok sb =>
          obtain ⟨st, body⟩ := sb
          by_cases hs : st = 200
          · simp [FetchBase, isFetchError, hrev, hl, hu, hf, hs]
          · simp [FetchBase, isFetchError, hrev, hl, hu, hf, hs]
    · have hl' : env.linkValid base = false := by simpa using hl
      simp [FetchBase, isFetchError, hrev, hl']
  · intro env₁ env₂ base filename rev hlv hfetch
    by_cases h0 : rev = some 0
    · simp [FetchBase, h0]
    · cases hu : MakeUrl base filename rev with
      | none => simp [FetchBase, h0, hlv, hu]
      | some url => simp [FetchBase, h0, hlv, hu, hfetch url hu]

/-- Witness for C8: with a transport answering 404 at the constructed URL,
revision 0 short-circuits to empty content and revision 3 raises a
`FetchError` (non-200 status). -/
theorem C8_witness :
    FetchBase ⟨fun _ => true, fun _ => .ok (404, "b")⟩ "http://h/p" "f.py" (some 0) =
      FetchResult.content "" false
    ∧ isFetchError
        (FetchBase ⟨fun _ => true, fun _ => .ok (404, "b")⟩ "http://h/p" "f.py" (some 3))
        = true :=
  ⟨(C8_fetch_base.1 ⟨fun _ => true, fun _ => .ok (404, "b")⟩
      ⟨fun _ => true, fun _ => .ok (404, "b")⟩ "http://h/p" "f.py").1,
   (C8_fetch_base.2.1 ⟨fun _ => true, fun _ => .ok (404, "b")⟩ "http://h/p" "f.py"
      (some 3) (by decide)).2
    (Or.inr ⟨"http://h/p" ++ "/" ++ "f.py" ++ "?rev=" ++ decRepr 3, by decide,
      Or.inr ⟨404, "b", rfl, by decide⟩⟩)⟩


/-- **C3** (counterexample): the original claim says the generator, invoked
with two distinct patches with identical line contents, emits the single
informational row and terminates, emitting nothing for further operations.
On the code it emits the informational row and then keeps processing: with
one `equal` operation the output has two rows, the second being an ordinary
`equal` code row. -/
theorem C3_counterexample :
    c3Gen.length = 2
    ∧ c3Gen.getD 0 ("", "") =
        ("", "<tr><td class=\"info\" colspan=\"2\">(Both sides are equal)</td></tr>")
    ∧ (c3Gen.getD 1 ("", "")).1 = "equal" := by
  refine ⟨by decide, by decide, by decide⟩

/-- **C3** (amended): invoked with two distinct patches whose line contents
are identical, the generator emits the informational `(Both sides are
equal)` row first and then continues with the ordinary operation loop over
all diff operations (the row is advisory, not terminal). -/
theorem C3_equal_sides_row (env : Env) (p1 p2 : Patch) (hne : p1 ≠ p2)
    (hlines : p1.lines = p2.lines) (od nd : CommentDict) (om nm : Nat)
    (osnap nsnap : String) (triples : List Triple) (cw : Nat) (dbg : Bool) :
    TableRowGenerator env (some p1) od om osnap (some p2) nd nm nsnap triples cw dbg
      = ("", "<tr><td class=\"info\" colspan=\"2\">(Both sides are equal)</td></tr>")
        :: TableRowGenLoop env (some p1) (some p2) od nd osnap nsnap
            (1 + max (decRepr om).length (decRepr nm).length)
            (1 + (1 + max (decRepr om).length (decRepr nm).length)) cw dbg 0 0 0 triples := by
  unfold TableRowGenerator
  have h1 : ¬ ((some p1 : Option Patch) = some p2 ∧ (om = 0 ∨ nm = 0)) := by
    rintro ⟨he, _⟩
    exact hne (by injection he)
  have h2 : (some p1 : Option Patch) ≠ some p2
      ∧ (some p1 : Option Patch).map Patch.lines = (some p2 : Option Patch).map Patch.lines := by
    refine ⟨by simpa using hne, by simpa using hlines⟩
  rw [if_neg h1, if_pos h2]
  rfl

/-- Witness for the amended C3 at concrete patches `⟨1, ["l"]⟩ ≠ ⟨2, ["l"]⟩`
with one equal operation. -/
theorem C3_witness :
    TableRowGenerator simpleEnv (some ⟨1, ["l"]⟩) emptyDict 2 "new"
        (some ⟨2, ["l"]⟩) emptyDict 2 "new" [("equal", ["a"], ["a"])] 80 false
      = ("", "<tr><td class=\"info\" colspan=\"2\">(Both sides are equal)</td></tr>")
        :: TableRowGenLoop simpleEnv (some ⟨1, ["l"]⟩) (some ⟨2, ["l"]⟩) emptyDict emptyDict
            "new" "new" (1 + max (decRepr 2).length (decRepr 2).length)
            (1 + (1 + max (decRepr 2).length (decRepr 2).length)) 80 false 0 0 0
            [("equal", ["a"], ["a"])] :=
  C3_equal_sides_row simpleEnv ⟨1, ["l"]⟩ ⟨2, ["l"]⟩ (by decide) rfl emptyDict emptyDict
    2 2 "new" "new" [("equal", ["a"], ["a"])] 80 false

/-- **C6**: draft comments by a user other than the viewer never reach the
rendered rows — both render entry points produce output identical to a run
with such drafts removed — while every non-draft comment is present in the
per-line lookup (on its side, at its line) for every viewer. -/
theorem C6_draft_visibility :
    (∀ (env : Env) (requser : String) (comments : List Comment)
        (old_lines : List String) (chunks : List Chunk) (patch : Option Patch)
        (triples : List Triple) (cw : Nat) (dbg : Bool),
      RenderDiffTableRowsM env requser comments old_lines chunks patch triples cw dbg
        = RenderDiffTableRowsM env requser
            (comments.filter (fun c => !(c.draft && c.author != requser)))
            old_lines chunks patch triples cw dbg)
    ∧ (∀ (env : Env) (requser : String) (oldComments newComments : List Comment)
        (old_lines : List String) (old_patch : Patch) (new_lines : List String)
        (new_patch : Patch) (triples : List Triple) (cw : Nat) (dbg : Bool),
      RenderDiff2TableRowsM env requser oldComments newComments old_lines old_patch
          new_lines new_patch triples cw dbg
        = RenderDiff2TableRowsM env requser
            (oldComments.filter (fun c => !(c.draft && c.author != requser)))
            (newComments.filter (fun c => !(c.draft && c.author != requser)))
            old_lines old_patch new_lines new_patch triples cw dbg)
    ∧ (∀ (requser : String) (comments : List Comment) (c : Comment),
        c ∈ comments → c.draft = false →
        (c.left = true → c ∈ (buildDictsLR requser comments).1 c.lineno)
        ∧ (c.left = false → c ∈ (buildDictsLR requser comments).2 c.lineno)
        ∧ c ∈ buildDictNoSide requser comments c.lineno) := by
  refine ⟨?_, ?_, ?_⟩
  · intro env requser comments old_lines chunks patch triples cw dbg
    simp only [RenderDiffTableRowsM, buildDictsLR_filter]
  · intro env requser oc nc old_lines op new_lines np triples cw dbg
    simp only [RenderDiff2TableRowsM, buildDictNoSide_filter]
  · intro requser comments c hmem hdraft
    have hvis : (!(c.draft && c.author != requser)) = true := by simp [hdraft]
    refine ⟨?_, ?_, ?_⟩
    · intro hleft
      have h := (buildDictsLR_apply requser comments
        ((fun _ => [], fun _ => []) : CommentDict × CommentDict) c.lineno).1
      unfold buildDictsLR
      rw [h]
      simp only [List.nil_append]
      exact List.mem_filter.2 ⟨hmem, by simp [hdraft, hleft]⟩
    · intro hleft
      have h := (buildDictsLR_apply requser comments
        ((fun _ => [], fun _ => []) : CommentDict × CommentDict) c.lineno).2
      unfold buildDictsLR
      rw [h]
      simp only [List.nil_append]
      exact List.mem_filter.2 ⟨hmem, by simp [hdraft, hleft]⟩
    · have h := buildDictNoSide_apply requser comments (fun _ => []) c.lineno
      unfold buildDictNoSide
      rw [h]
      simp only [List.nil_append]
      exact List.mem_filter.2 ⟨hmem, by simp [hdraft]⟩

/-- Witness for C6: a non-draft new-side comment by `bob` is visible in
`alice`'s lookup, and a run with `bob`'s drafts removed renders identically
for viewer `alice`. -/
theorem C6_witness :
    RenderDiffTableRowsM simpleEnv "alice"
        [⟨"bob", true, false, 1, "secret"⟩, ⟨"bob", false, false, 1, "public"⟩]
        ["x"] [] (some ⟨1, ["p"]⟩) [("equal", ["x"], ["x"])] 80 false
      = RenderDiffTableRowsM simpleEnv "alice"
          (([⟨"bob", true, false, 1, "secret"⟩, ⟨"bob", false, false, 1, "public"⟩] :
            List Comment).filter (fun c => !(c.draft && c.author != "alice")))
          ["x"] [] (some ⟨1, ["p"]⟩) [("equal", ["x"], ["x"])] 80 false
    ∧ (⟨"bob", false, false, 1, "public"⟩ : Comment) ∈
        buildDictNoSide "alice"
          [⟨"bob", true, false, 1, "secret"⟩, ⟨"bob", false, false, 1, "public"⟩] 1 :=
  ⟨C6_draft_visibility.1 simpleEnv "alice" _ ["x"] [] (some ⟨1, ["p"]⟩)
      [("equal", ["x"], ["x"])] 80 false,
   (C6_draft_visibility.2.2 "alice"
      [⟨"bob", true, false, 1, "secret"⟩, ⟨"bob", false, false, 1, "public"⟩]
      ⟨"bob", false, false, 1, "public"⟩ (by decide) rfl).2.2⟩

/-- **C5** support: lemmas tracking the `pair-N` ids through rendering. -/
theorem foldl_append_data (l : List String) : ∀ s : String,
    (l.foldl (· ++ ·) s).data = s.data ++ (l.map String.data).flatten := by
  induction l with
  | nil => intro s; simp
  | cons a as ih =>
    intro s
    rw [List.foldl_cons, ih]
    simp [String.data_append]

theorem joinListData (l : List String) :
    (joinList l).data = (l.map String.data).flatten := by
  unfold joinList
  rw [foldl_append_data]
  rfl

theorem rowIdOf_row (b : Bool) (m : Nat) (rest : List String) :
    rowIdOf (joinList ((if b then "<tr name=\"hook\"" else "<tr") ::
      (" id=\"pair-" ++ decRepr m ++ "\">") :: rest)) = some m := by
  unfold rowIdOf
  rw [joinListData]
  have hdat : ((" id=\"pair-" ++ decRepr m ++ "\">").data)
      = " id=\"pair-".data ++ (natLit m ++ ['"', '>']) := by
    rw [String.data_append, String.data_append]
    simp [decRepr, List.append_assoc]
  cases b
  · simp only [Bool.false_eq_true, if_false, List.map_cons, List.flatten_cons, hdat]
    have hshape : "<tr".data ++ ((" id=\"pair-".data ++ (natLit m ++ ['"', '>'])) ++
        ((rest.map String.data).flatten))
        = plainLit ++ (natLit m ++ '"' :: '>' :: (rest.map String.data).flatten) := by
      have hpl : "<tr".data ++ " id=\"pair-".data = plainLit := by decide
      rw [← hpl]
      simp [List.append_assoc]
    rw [hshape]
    exact parseRowId_plain m _
  · simp only [if_true, List.map_cons, List.flatten_cons, hdat]
    have hshape : "<tr name=\"hook\"".data ++ ((" id=\"pair-".data ++ (natLit m ++ ['"', '>'])) ++
        ((rest.map String.data).flatten))
        = hookLit ++ (natLit m ++ '"' :: '>' :: (rest.map String.data).flatten) := by
      have hpl : "<tr name=\"hook\"".data ++ " id=\"pair-".data = hookLit := by decide
      rw [← hpl]
      simp [List.append_assoc]
    rw [hshape]
    exact parseRowId_hook m _

theorem RDIrow_rowIdOf (env : Env) (ndigits : Nat) (tag : String) (do_ir_diff : Bool)
    (old_dict new_dict : CommentDict) (old_patch new_patch : Option Patch)
    (old_snapshot new_snapshot : String) (debug : Bool) (ob nb : REntry)
    (b : Bool) (m : Nat) :
    rowIdOf (RDIrow env ndigits tag do_ir_diff old_dict new_dict old_patch new_patch
      old_snapshot new_snapshot debug
      (ob, nb, [(if b then "<tr name=\"hook\"" else "<tr"),
        " id=\"pair-" ++ decRepr m ++ "\">"])).2 = some m := by
  by_cases hp : (old_patch.isSome || new_patch.isSome) = true <;>
    by_cases hd : debug = true <;>
      simp only [RDIrow, hp, hd, Bool.false_eq_true, if_true, if_false,
        List.cons_append, List.nil_append] <;>
      exact rowIdOf_row b m _

theorem zip_map_map {α β γ δ : Type _} (l : List α) (f : α → β) (g : α → γ)
    (h : α → δ) :
    (l.map f).zip ((l.map g).zip (l.map h)) = l.map (fun x => (f x, g x, h x)) := by
  induction l with
  | nil => rfl
  | cons a as ih => simp [ih]

theorem flatMap_singleton_map {α β : Type _} (l : List α) (g : α → β) :
    l.flatMap (fun i => [g i]) = l.map g := by
  induction l with
  | nil => rfl
  | cons a as ih => simp [ih]

theorem zipWith_left_map_range {β γ δ : Type _} (n : Nat) (f : Nat → β) (l : List γ)
    (hl : l.length = n) (comb : β → γ → δ) (d : γ) :
    List.zipWith comb ((List.range n).map f) l
      = (List.range n).map (fun i => comb (f i) (l.getD i d)) := by
  apply List.ext_getElem
  · simp [hl]
  · intro i h1 h2
    have hi : i < n := by simpa using h2
    have hi' : i < l.length := by omega
    rw [List.getElem_zipWith]
    simp only [List.getElem_map, List.getElem_range]
    rw [List.getD_eq_getElem l d hi']

theorem rowIds_append (a b : List (String × String)) :
    rowIds (a ++ b) = rowIds a ++ rowIds b := List.filterMap_append a b _

theorem rowIds_map_range (n rc : Nat) (rowF : Nat → String × String)
    (hrow : ∀ i, i < n → rowIdOf (rowF i).2 = some (rc + i + 1)) :
    rowIds ((List.range n).map rowF) = List.range' (rc + 1) n := by
  unfold rowIds
  rw [List.filterMap_map]
  have h1 : List.filterMap ((fun r : String × String => rowIdOf r.2) ∘ rowF) (List.range n)
      = List.filterMap (some ∘ (fun i => rc + 1 + i)) (List.range n) := by
    apply List.filterMap_congr
    intro i hi
    simp only [Function.comp_apply]
    rw [hrow i (List.mem_range.1 hi)]
    exact congrArg some (by omega)
  rw [h1, List.filterMap_eq_map, ← List.range'_eq_map_range]

theorem RDI_singleton (env : Env) (ndigits : Nat) (tag : String) (do_ir_diff : Bool)
    (old_dict new_dict : CommentDict) (old_patch new_patch : Option Patch)
    (old_snapshot new_snapshot : String) (colwidth : Nat) (debug : Bool)
    (e1 e2 : REntry) (fr : List String) :
    RenderDiffInternal env [e1] [e2] ndigits tag [fr] do_ir_diff old_dict new_dict
      old_patch new_patch old_snapshot new_snapshot colwidth debug
      = [RDIrow env ndigits tag do_ir_diff old_dict new_dict old_patch new_patch
          old_snapshot new_snapshot debug (e1, e2, fr)] := rfl

theorem rowIds_processTriple (env : Env) (old_patch new_patch : Option Patch)
    (old_dict new_dict : CommentDict) (old_snapshot new_snapshot : String)
    (ndigits indent colwidth : Nat) (debug : Bool) (old1 new1 rc : Nat)
    (tag : String) (old new : List String)
    (hirOld : ∀ ol nl cw ind dbg, (env.irOld ol nl cw ind dbg).length = ol.length)
    (hirNew : ∀ ol nl cw ind dbg, (env.irNew ol nl cw ind dbg).length = nl.length) :
    rowIds (processTriple env old_patch new_patch old_dict new_dict old_snapshot
        new_snapshot ndigits indent colwidth debug old1 new1 rc tag old new)
      = List.range' (rc + 1) (max old.length new.length) := by
  simp only [processTriple]
  by_cases hdo : (tag == "replace" && env.canDoIRDiff old new) = true
  · simp only [hdo, if_true]
    rw [zipWith_left_map_range _ _ _
        (by rw [hirOld]; simp) _ ("", true, (none : Option String)),
      zipWith_left_map_range _ _ _
        (by rw [hirNew]; simp) _ ("", true, (none : Option String))]
    unfold RenderDiffInternal
    rw [zip_map_map, List.map_map]
    apply rowIds_map_range
    intro i hi
    exact RDIrow_rowIdOf env ndigits tag _ old_dict new_dict old_patch new_patch
      old_snapshot new_snapshot debug _ _ _ (rc + i + 1)
  · simp only [hdo, Bool.false_eq_true, if_false]
    simp only [RDI_singleton]
    rw [flatMap_singleton_map]
    apply rowIds_map_range
    intro i hi
    exact RDIrow_rowIdOf env ndigits tag _ old_dict new_dict old_patch new_patch
      old_snapshot new_snapshot debug _ _ _ (rc + i + 1)

theorem rowIdOf_error_row (tag : String) :
    rowIdOf ("<tr><td><h3>" ++ cgiEscape tag ++ "</h3></td></tr>\n") = none := by
  unfold rowIdOf
  simp only [String.data_append, List.append_assoc]
  simp only [List.cons_append, List.nil_append]
  exact parseRowId_tr_gt _

theorem rowIdOf_info_row (m1 m2 : String) :
    rowIdOf ("<tr><td class=\"info\">" ++ m1 ++ "</td><td class=\"info\">" ++ m2 ++
      "</td></tr>") = none := by
  unfold rowIdOf
  simp only [String.data_append, List.append_assoc]
  simp only [List.cons_append, List.nil_append]
  exact parseRowId_tr_gt _

theorem rowIds_loop (env : Env) (old_patch new_patch : Option Patch)
    (old_dict new_dict : CommentDict) (old_snapshot new_snapshot : String)
    (ndigits indent colwidth : Nat) (debug : Bool)
    (hirOld : ∀ ol nl cw ind dbg, (env.irOld ol nl cw ind dbg).length = ol.length)
    (hirNew : ∀ ol nl cw ind dbg, (env.irNew ol nl cw ind dbg).length = nl.length) :
    ∀ (triples : List Triple) (oo no rc : Nat),
      rowIds (TableRowGenLoop env old_patch new_patch old_dict new_dict old_snapshot
          new_snapshot ndigits indent colwidth debug oo no rc triples)
        = List.range' (rc + 1) (genPairCount triples) := by
  intro triples
  induction triples with
  | nil => intro oo no rc; rfl
  | cons t rest ih =>
    intro oo no rc
    obtain ⟨tag, old, new⟩ := t
    by_cases ht : strStartsWith tag "error" = true
    · simp only [TableRowGenLoop, ht, if_true, genPairCount]
      unfold rowIds
      simp [List.filterMap_cons, rowIdOf_error_row tag]
    · simp only [TableRowGenLoop, ht, Bool.false_eq_true, if_false, genPairCount]
      rw [rowIds_append,
        rowIds_processTriple env old_patch new_patch old_dict new_dict old_snapshot
          new_snapshot ndigits indent colwidth debug oo no rc tag old new hirOld hirNew,
        ih (oo + old.length) (no + new.length) (rc + max old.length new.length)]
      have hr := List.range'_append (rc + 1) (max old.length new.length)
        (genPairCount rest) 1
      simp only [one_mul] at hr
      rw [show rc + max old.length new.length + 1
          = rc + 1 + max old.length new.length from by omega, hr]
      exact congrArg (List.range' (rc + 1)) (Nat.add_comm _ _)

/-- **C5**: across one full uncollapsed render the `pair-N` row ids embedded
in the emitted code rows form exactly the sequence `1, 2, 3, ...` — starting
at 1, increasing by exactly 1 per line pair, assigned once per pair with no
gaps, reuse or reordering (informational and error rows carry no id).  The
hypotheses are the per-line contract of the external intra-region diff
collaborator. -/
theorem C5_row_id_sequence (env : Env) (old_patch : Option Patch)
    (old_dict : CommentDict) (old_max : Nat) (old_snapshot : String)
    (new_patch : Option Patch) (new_dict : CommentDict) (new_max : Nat)
    (new_snapshot : String) (triples : List Triple) (cw : Nat) (dbg : Bool)
    (hirOld : ∀ ol nl cw' ind dbg', (env.irOld ol nl cw' ind dbg').length = ol.length)
    (hirNew : ∀ ol nl cw' ind dbg', (env.irNew ol nl cw' ind dbg').length = nl.length) :
    rowIds (TableRowGenerator env old_patch old_dict old_max old_snapshot new_patch
        new_dict new_max new_snapshot triples cw dbg)
      = List.range' 1 (genPairCount triples) := by
  simp only [TableRowGenerator]
  rw [rowIds_append]
  have hh : rowIds
      (if old_patch = new_patch ∧ (old_max = 0 ∨ new_max = 0) then
        [("", "<tr><td class=\"info\">" ++ (if old_max = 0 then "(Empty)" else "") ++
          "</td><td class=\"info\">" ++ (if new_max = 0 then "(Empty)" else "") ++
          "</td></tr>")]
      else if old_patch ≠ new_patch
          ∧ old_patch.map Patch.lines = new_patch.map Patch.lines then
        [("", "<tr><td class=\"info\" colspan=\"2\">(Both sides are equal)</td></tr>")]
      else []) = [] := by
    split
    · unfold rowIds
      simp [List.filterMap_cons, rowIdOf_info_row]
    · split
      · unfold rowIds
        simp [List.filterMap_cons,
          show rowIdOf "<tr><td class=\"info\" colspan=\"2\">(Both sides are equal)</td></tr>"
            = none from by decide]
      · rfl
  rw [hh, List.nil_append,
    rowIds_loop env old_patch new_patch old_dict new_dict old_snapshot new_snapshot
      _ _ cw dbg hirOld hirNew triples 0 0 0]

/-- Witness for C5: three operations (one equal pair, a two-pair replace, an
error) give ids exactly `[1, 2, 3]`. -/
theorem C5_witness :
    rowIds (TableRowGenerator simpleEnv none emptyDict 3 "old" none emptyDict 3 "new"
        [("equal", ["a"], ["a"]), ("replace", ["b"], ["c", "d"]), ("error x", [], [])]
        80 false)
      = List.range' 1 3 := by
  rw [C5_row_id_sequence simpleEnv none emptyDict 3 "old" none emptyDict 3 "new"
    [("equal", ["a"], ["a"]), ("replace", ["b"], ["c", "d"]), ("error x", [], [])] 80 false
    (fun ol nl _ _ _ => by simp [simpleEnv]) (fun ol nl _ _ _ => by simp [simpleEnv])]
  decide

/-- **C1** support: the tag of every rendered row is the operation tag,
possibly suffixed `_comment`. -/
theorem RDIrow_fst {env : Env} {ndigits : Nat} {tag : String} {do_ir_diff : Bool}
    {old_dict new_dict : CommentDict} {old_patch new_patch : Option Patch}
    {old_snapshot new_snapshot : String} {debug : Bool}
    (entry : REntry × REntry × List String) :
    (RDIrow env ndigits tag do_ir_diff old_dict new_dict old_patch new_patch
      old_snapshot new_snapshot debug entry).1 = tag
    ∨ (RDIrow env ndigits tag do_ir_diff old_dict new_dict old_patch new_patch
        old_snapshot new_snapshot debug entry).1 = tag ++ "_comment" := by
  obtain ⟨ob, nb, fr⟩ := entry
  by_cases hp : (old_patch.isSome || new_patch.isSome) = true
  · by_cases hcm : (ob.1 && !(old_dict ob.2.1).isEmpty
        || nb.1 && !(new_dict nb.2.1).isEmpty) = true
    · exact Or.inr (by simp [RDIrow, hp, hcm])
    · exact Or.inl (by simp [RDIrow, hp, hcm])
  · exact Or.inl (by simp [RDIrow, hp])

theorem RenderDiffInternal_fst {env : Env} {old_buff new_buff : List REntry}
    {ndigits : Nat} {tag : String} {frag_list : List (List String)} {do_ir_diff : Bool}
    {old_dict new_dict : CommentDict} {old_patch new_patch : Option Patch}
    {old_snapshot new_snapshot : String} {colwidth : Nat} {debug : Bool} :
    ∀ r ∈ RenderDiffInternal env old_buff new_buff ndigits tag frag_list do_ir_diff
      old_dict new_dict old_patch new_patch old_snapshot new_snapshot colwidth debug,
      r.1 = tag ∨ r.1 = tag ++ "_comment" := by
  intro r hr
  unfold RenderDiffInternal at hr
  rcases List.mem_map.1 hr with ⟨e, _, rfl⟩
  exact RDIrow_fst e

theorem processTriple_fst {env : Env} {old_patch new_patch : Option Patch}
    {old_dict new_dict : CommentDict} {old_snapshot new_snapshot : String}
    {ndigits indent colwidth : Nat} {debug : Bool} {old1 new1 rc : Nat}
    {tag : String} {old new : List String} :
    ∀ r ∈ processTriple env old_patch new_patch old_dict new_dict old_snapshot
        new_snapshot ndigits indent colwidth debug old1 new1 rc tag old new,
      r.1 = tag ∨ r.1 = tag ++ "_comment" := by
  intro r hr
  simp only [processTriple] at hr
  by_cases hdo : (tag == "replace" && env.canDoIRDiff old new) = true
  · simp only [hdo, if_true] at hr
    exact RenderDiffInternal_fst r hr
  · simp only [hdo, Bool.false_eq_true, if_false] at hr
    rcases List.mem_flatMap.1 hr with ⟨i, _, hri⟩
    exact RenderDiffInternal_fst r hri

theorem isPrefixOf_self : ∀ l : List Char, l.isPrefixOf l = true := by
  intro l
  induction l with
  | nil => rfl
  | cons c cs ih => simp [List.isPrefixOf, ih]

theorem strStartsWith_self (s : String) : strStartsWith s s = true := by
  unfold strStartsWith
  exact isPrefixOf_self s.data

theorem comment_suffix_ne_error (tag : String) : tag ++ "_comment" ≠ "error" := by
  intro h
  have hd := congrArg String.data h
  rw [String.data_append] at hd
  have hl := congrArg List.length hd
  rw [List.length_append] at hl
  simp at hl

theorem TableRowGenLoop_cons (env : Env) (old_patch new_patch : Option Patch)
    (old_dict new_dict : CommentDict) (old_snapshot new_snapshot : String)
    (ndigits indent colwidth : Nat) (debug : Bool) (oo no rc : Nat)
    (tag : String) (old new : List String) (rest : List Triple) :
    TableRowGenLoop env old_patch new_patch old_dict new_dict old_snapshot new_snapshot
        ndigits indent colwidth debug oo no rc ((tag, old, new) :: rest)
      = if strStartsWith tag "error" then
          [("error", "<tr><td><h3>" ++ cgiEscape tag ++ "</h3></td></tr>\n")]
        else
          processTriple env old_patch new_patch old_dict new_dict old_snapshot
            new_snapshot ndigits indent colwidth debug oo no rc tag old new ++
          TableRowGenLoop env old_patch new_patch old_dict new_dict old_snapshot
            new_snapshot ndigits indent colwidth debug (oo + old.length)
            (no + new.length) (rc + max old.length new.length) rest := rfl

theorem loop_row_ne_error (env : Env) (old_patch new_patch : Option Patch)
    (old_dict new_dict : CommentDict) (old_snapshot new_snapshot : String)
    (ndigits indent colwidth : Nat) (debug : Bool) :
    ∀ (triples : List Triple) (oo no rc : Nat),
      (∀ t ∈ triples, strStartsWith (t : Triple).1 "error" = false) →
      ∀ r ∈ TableRowGenLoop env old_patch new_patch old_dict new_dict old_snapshot
          new_snapshot ndigits indent colwidth debug oo no rc triples,
        r.1 ≠ "error" := by
  intro triples
  induction triples with
  | nil => intro oo no rc _ r hr; exact absurd hr (List.not_mem_nil r)
  | cons t rest ih =>
    intro oo no rc hpre r hr
    obtain ⟨tag, old, new⟩ := t
    have ht : strStartsWith tag "error" = false := hpre (tag, old, new) (by simp)
    rw [TableRowGenLoop_cons, ht] at hr
    simp only [Bool.false_eq_true, if_false] at hr
    rcases List.mem_append.1 hr with h | h
    · rcases processTriple_fst r h with h1 | h1
      · rw [h1]
        intro he
        rw [he, strStartsWith_self] at ht
        simp at ht
      · rw [h1]
        exact comment_suffix_ne_error tag
    · exact ih (oo + old.length) (no + new.length) (rc + max old.length new.length)
        (fun t' ht' => hpre t' (by simp [ht'])) r h

theorem loop_error_split (env : Env) (old_patch new_patch : Option Patch)
    (old_dict new_dict : CommentDict) (old_snapshot new_snapshot : String)
    (ndigits indent colwidth : Nat) (debug : Bool) :
    ∀ (pre : List Triple) (tag : String) (old new : List String) (rest : List Triple)
      (oo no rc : Nat),
      (∀ t ∈ pre, strStartsWith (t : Triple).1 "error" = false) →
      strStartsWith tag "error" = true →
      TableRowGenLoop env old_patch new_patch old_dict new_dict old_snapshot
          new_snapshot ndigits indent colwidth debug oo no rc
          (pre ++ (tag, old, new) :: rest)
        = TableRowGenLoop env old_patch new_patch old_dict new_dict old_snapshot
            new_snapshot ndigits indent colwidth debug oo no rc pre
          ++ [("error", "<tr><td><h3>" ++ cgiEscape tag ++ "</h3></td></tr>\n")] := by
  intro pre
  induction pre with
  | nil =>
    intro tag old new rest oo no rc _ htag
    simp only [List.nil_append, TableRowGenLoop, htag, if_true]
  | cons t pre' ih =>
    intro tag old new rest oo no rc hpre htag
    obtain ⟨tg, o, n⟩ := t
    have ht : strStartsWith tg "error" = false := hpre (tg, o, n) (by simp)
    rw [List.cons_append, TableRowGenLoop_cons, ht, TableRowGenLoop_cons, ht]
    simp only [Bool.false_eq_true, if_false]
    rw [ih tag old new rest (oo + o.length) (no + n.length)
      (rc + max o.length n.length) (fun t' ht' => hpre t' (by simp [ht'])) htag,
      List.append_assoc]

theorem cleanupLoop_error_append (context : Nat) (hc : 1 ≤ context) :
    ∀ (xs : List (String × String)) (buffer : List String) (e : String),
      (∀ r ∈ xs, (r : String × String).1 ≠ "error") →
      cleanupLoop context buffer (xs ++ [("error", e)])
        = (cleanupLoop context buffer xs).map (fun out => out ++ [some e, none]) := by
  intro xs
  induction xs with
  | nil =>
    intro buffer e _
    simp only [List.nil_append, cleanupLoop]
    rw [if_neg (by decide)]
    cases hb : buffer.isEmpty
    · have hb' : ¬ buffer.isEmpty = true := by simp [hb]
      cases hsb : ShortenBuffer buffer context with
      | none => simp [cleanupLoop, hb, hsb]
      | some flushed => simp [cleanupLoop, hb, hsb]
    · have hbe : buffer = [] := List.isEmpty_iff.1 hb
      subst hbe
      rw [ShortenBuffer_short (by simp; omega)]
      simp [cleanupLoop]
  | cons p xs ih =>
    intro buffer e h
    obtain ⟨t, x⟩ := p
    have ht : t ≠ "error" := h (t, x) (by simp)
    simp only [List.cons_append, cleanupLoop]
    by_cases hteq : t = "equal"
    · rw [if_pos hteq, if_pos hteq]
      exact ih (buffer ++ [x]) e (fun r hr => h r (by simp [hr]))
    · rw [if_neg hteq, if_neg hteq]
      cases hsb : ShortenBuffer buffer context with
      | none => simp
      | some flushed =>
        dsimp only
        rw [if_neg ht, if_neg ht]
        simp only [List.append_eq]
        rw [ih [] e (fun r hr => h r (by simp [hr]))]
        cases hcl : cleanupLoop context [] xs with
        | none => simp
        | some tailOut => simp

/-- **C1** (counterexample): the original claim says the pipeline yields
every row produced before the error.  With the default context 50 and a run
of 150 equal rows before the error, the pipeline collapses the run: the
75th generated row is an `equal` row of the generator output but does not
occur in the pipeline output (which still ends with the error row and the
`None` marker). -/
theorem C1_counterexample :
    ("equal", c1MidRow) ∈ c1Gen
    ∧ c1Pipe.isSome = true
    ∧ some c1MidRow ∉ c1Pipe.getD [] := by
  refine ⟨by decide, by decide, by decide⟩

/-- **C1** (amended): for every operation stream whose first error-tagged
operation follows `pre`, the full pipeline (row generation followed by
collapsing) yields the collapsed rendering of the rows produced before the
error (exactly the pipeline output for `pre` alone), then exactly one row
rendering the escaped error message, then a single `none` terminal marker,
and no rows after it; the operations after the error are never consumed. -/
theorem C1_error_pipeline (env : Env) (old_patch : Option Patch)
    (old_dict : CommentDict) (old_max : Nat) (old_snapshot : String)
    (new_patch : Option Patch) (new_dict : CommentDict) (new_max : Nat)
    (new_snapshot : String) (cw : Nat) (dbg : Bool) (context : Nat)
    (pre : List Triple) (tag : String) (old new : List String) (rest : List Triple)
    (hc : 1 ≤ context)
    (hpre : ∀ t ∈ pre, strStartsWith (t : Triple).1 "error" = false)
    (htag : strStartsWith tag "error" = true) :
    FullPipeline env old_patch old_dict old_max old_snapshot new_patch new_dict
        new_max new_snapshot (pre ++ (tag, old, new) :: rest) cw dbg context
      = (FullPipeline env old_patch old_dict old_max old_snapshot new_patch new_dict
          new_max new_snapshot pre cw dbg context).map
          (fun out => out ++
            [some ("<tr><td><h3>" ++ cgiEscape tag ++ "</h3></td></tr>\n"), none]) := by
  unfold FullPipeline CleanupTableRowsGenerator
  simp only [TableRowGenerator]
  rw [loop_error_split env old_patch new_patch old_dict new_dict old_snapshot
    new_snapshot _ _ cw dbg pre tag old new rest 0 0 0 hpre htag,
    ← List.append_assoc]
  apply cleanupLoop_error_append context hc
  intro r hr
  rcases List.mem_append.1 hr with h | h
  · split at h
    · rcases List.mem_singleton.1 h with rfl
      exact (by decide : ("" : String) ≠ "error")
    · split at h
      · rcases List.mem_singleton.1 h with rfl
        exact (by decide : ("" : String) ≠ "error")
      · exact absurd h (List.not_mem_nil r)
  · exact loop_row_ne_error env old_patch new_patch old_dict new_dict old_snapshot
      new_snapshot _ _ cw dbg pre 0 0 0 hpre r h

/-- Witness for the amended C1 at a concrete stream: one equal operation
before an error operation, context 1. -/
theorem C1_witness :
    FullPipeline simpleEnv none emptyDict 1 "old" none emptyDict 1 "new"
        ([("equal", ["a"], ["a"])] ++ ("error", [], []) :: []) 80 false 1
      = (FullPipeline simpleEnv none emptyDict 1 "old" none emptyDict 1 "new"
          [("equal", ["a"], ["a"])] 80 false 1).map
          (fun out => out ++
            [some ("<tr><td><h3>" ++ cgiEscape "error" ++ "</h3></td></tr>\n"), none]) :=
  C1_error_pipeline simpleEnv none emptyDict 1 "old" none emptyDict 1 "new" 80 false 1
    [("equal", ["a"], ["a"])] "error" [] [] [] (by decide) (by decide) (by decide)

end Rietveld





